import Mathlib

/-!
Verification of the tap-registry test-fixture builder
(`python-test/features/steps/taps.py`): a shallow embedding of the `Taps`
class and of the `UtilsManager` merge helpers it calls, together with
theorems settling the behavioural claims of the specification.

Python dictionaries with string keys are embedded as association lists with
Python's semantics: updating an existing key replaces its value in place,
a new key is appended at the end, `pop` removes the (unique) entry.
-/

/-- A Python value as it occurs in this module: strings, integers,
booleans and `None`. -/
inductive Val where
  | str : String → Val
  | int : Int → Val
  | bool : Bool → Val
  | null : Val
deriving DecidableEq, Repr

/-- A string-keyed Python dictionary, as an insertion-ordered
association list. -/
abbrev Dict (α : Type) : Type := List (String × α)

/-- `d[k]` lookup: the value at the first entry with key `k`. -/
def Dict.get? {α : Type} : Dict α → String → Option α
  | [], _ => none
  | (k', v) :: d, k => if k = k' then some v else Dict.get? d k

/-- `list(d.keys())`. -/
def Dict.keys {α : Type} (d : Dict α) : List String :=
  d.map Prod.fst

/-- `d[k] = v` / `d.update({k: v})`: replace in place when the key exists,
append when it does not. -/
def Dict.insert {α : Type} : Dict α → String → α → Dict α
  | [], k, v => [(k, v)]
  | (k', v') :: d, k, v =>
      if k = k' then (k', v) :: d else (k', v') :: Dict.insert d k v

/-- `d.pop(k, None)`: drop the first entry with key `k`, if any. -/
def Dict.pop {α : Type} : Dict α → String → Dict α
  | [], _ => []
  | (k', v') :: d, k => if k = k' then d else (k', v') :: Dict.pop d k

/-- `d.update(e)`: merge every pair of `e` into `d`, left to right. -/
def Dict.updateMany {α : Type} (d e : Dict α) : Dict α :=
  e.foldl (fun acc p => Dict.insert acc p.1 p.2) d

/-- A tap record.  The Python code only ever stores the four keys
`input_type`, `config`, `filter` and `tags` in a tap's dictionary, so the
record is embedded as a structure with one optional field per possible
key (`none` = key absent). -/
structure Tap where
  input_type : Option Val := none
  config : Option (Dict Val) := none
  filter : Option (Dict Val) := none
  tags : Option (Dict Val) := none
deriving DecidableEq, Repr

/-- `tap.pop(k, None)` on a tap record: remove the named top-level key if
present; any key other than the four possible ones is never present, so
popping it is a no-op. -/
def Tap.pop (tap : Tap) (k : String) : Tap :=
  if k = "input_type" then { tap with input_type := none }
  else if k = "config" then { tap with config := none }
  else if k = "filter" then { tap with filter := none }
  else if k = "tags" then { tap with tags := none }
  else tap

/-- The registry `self.taps`: tap name → tap record. -/
abbrev Taps : Type := Dict Tap

/-- The two failure modes of the module: a hamcrest `assert_that` failure
("Invalid tap") and a Python `KeyError` (a `LookupError`) from indexing a
missing dictionary key. -/
inductive TapError where
  | assertionError : TapError
  | keyError : TapError
deriving DecidableEq, Repr

namespace UtilsManager

/-- Modelled from the spec: `UtilsManager.update_object_with_filters_and_configs`
is not among the sources (only its caller `Taps.__build_tap` is).  Per the
spec it "merges in the supplied config key/value pairs and filter key/value
pairs (each pair supplied as a singleton mapping)" into the freshly built
`config` and `filter` sub-maps, and "absent keyword values are stored as
null" — every supplied singleton is merged, null values included. -/
def update_object_with_filters_and_configs (tap : Tap)
    (configs_list filters_list : List (String × Val)) : Tap :=
  { tap with
    config := some (Dict.updateMany (tap.config.getD []) configs_list),
    filter := some (Dict.updateMany (tap.filter.getD []) filters_list) }

/-- Modelled from the spec: `UtilsManager.add_configs` is not among the
sources.  Per the spec it "merges each supplied key/value into it
(overwriting existing keys, adding new ones)". -/
def add_configs (config : Dict Val) (kwargs : Dict Val) : Dict Val :=
  Dict.updateMany config kwargs

/-- Modelled from the spec: `UtilsManager.add_filters` is not among the
sources; same merge contract as `add_configs`, targeting the filter map. -/
def add_filters (filter : Dict Val) (kwargs : Dict Val) : Dict Val :=
  Dict.updateMany filter kwargs

/-- Modelled from the spec: `UtilsManager.remove_configs` is not among the
sources.  Per the spec it "removes each named key from that tap's `config`
map if present (no error if a key is already absent)". -/
def remove_configs (config : Dict Val) (args : List String) : Dict Val :=
  args.foldl Dict.pop config

/-- Modelled from the spec: `UtilsManager.remove_filters` is not among the
sources; same contract as `remove_configs`, targeting the filter map. -/
def remove_filters (filter : Dict Val) (args : List String) : Dict Val :=
  args.foldl Dict.pop filter

end UtilsManager

namespace Taps

/-- `kwargs.get(k)`: `None` when the keyword is absent. -/
def kwget (kwargs : Dict Val) (k : String) : Val :=
  (Dict.get? kwargs k).getD Val.null

/-- `Taps.__build_tap`: build `{name: {"input_type": ..., "config": {},
"filter": {}}}`, merge in the config and filter singletons via the
`UtilsManager` helper, and `self.taps.update(tap)`. -/
def build_tap (taps : Taps) (name : String) (input_type : String)
    (configs_list filters_list : List (String × Val)) : Taps :=
  let tap : Tap :=
    { input_type := some (Val.str input_type), config := some [],
      filter := some [], tags := none }
  let tap := UtilsManager.update_object_with_filters_and_configs tap
    configs_list filters_list
  Dict.insert taps name tap

/-- `Taps.add_pcap`. -/
def add_pcap (taps : Taps) (name : String) (kwargs : Dict Val) : Taps :=
  build_tap taps name "pcap"
    [("pcap_file", kwget kwargs "pcap_file"),
     ("pcap_source", kwget kwargs "pcap_source"),
     ("iface", kwget kwargs "iface"),
     ("host_spec", kwget kwargs "host_spec"),
     ("debug", kwget kwargs "debug")]
    [("bpf", kwget kwargs "bpf")]

/-- `Taps.add_flow`. -/
def add_flow (taps : Taps) (name : String) (kwargs : Dict Val) : Taps :=
  build_tap taps name "flow"
    [("pcap_file", kwget kwargs "pcap_file"),
     ("port", kwget kwargs "port"),
     ("bind", kwget kwargs "bind"),
     ("flow_type", kwget kwargs "flow_type")]
    []

/-- `Taps.add_dnstap`. -/
def add_dnstap (taps : Taps) (name : String) (kwargs : Dict Val) : Taps :=
  build_tap taps name "dnstap"
    [("dnstap_file", kwget kwargs "dnstap_file"),
     ("socket", kwget kwargs "socket"),
     ("tcp", kwget kwargs "tcp")]
    [("only_hosts", kwget kwargs "only_hosts")]

/-- `Taps.add_configs`: `self.taps[name]` (a `KeyError` when `name` is not
registered), ensure a `"config"` map exists, then merge the keyword
arguments into it. -/
def add_configs (taps : Taps) (name : String) (kwargs : Dict Val) :
    Except TapError Taps :=
  match Dict.get? taps name with
  | none => .error .keyError
  | some tap =>
    let tap := if tap.config.isSome then tap else { tap with config := some [] }
    .ok (Dict.insert taps name
      { tap with config := some (UtilsManager.add_configs (tap.config.getD []) kwargs) })

/-- `Taps.add_filters`: same shape as `add_configs`, targeting `"filter"`. -/
def add_filters (taps : Taps) (name : String) (kwargs : Dict Val) :
    Except TapError Taps :=
  match Dict.get? taps name with
  | none => .error .keyError
  | some tap =>
    let tap := if tap.filter.isSome then tap else { tap with filter := some [] }
    .ok (Dict.insert taps name
      { tap with filter := some (UtilsManager.add_filters (tap.filter.getD []) kwargs) })

/-- The body of `Taps.add_tag`'s inner loop, for one tap: for each
`(tag_key, tag_value)` pair, update the `tags` map when it exists,
otherwise create it as the singleton `{tag_key: tag_value}`. -/
def tap_add_tags (tap : Tap) (tags : Dict Val) : Tap :=
  tags.foldl
    (fun t p =>
      match t.tags with
      | some m => { t with tags := some (Dict.insert m p.1 p.2) }
      | none => { t with tags := some [(p.1, p.2)] })
    tap

/-- Apply `f` to the registry entry named `nm` in place (`nm` is always
registered at every call site). -/
def taps_apply (taps : Taps) (nm : String) (f : Tap → Tap) : Taps :=
  match Dict.get? taps nm with
  | some tap => Dict.insert taps nm (f tap)
  | none => taps

/-- `Taps.add_tag`: assert that `tap_name` is registered or is `"all"`,
resolve the target name list, and apply the tag pairs to every target. -/
def add_tag (taps : Taps) (tap_name : String) (tags : Dict Val) :
    Except TapError Taps :=
  if tap_name ∈ Dict.keys taps ∨ tap_name = "all" then
    let tap_names := if tap_name = "all" then Dict.keys taps else [tap_name]
    .ok (tap_names.foldl
      (fun acc nm => taps_apply acc nm (fun t => tap_add_tags t tags)) taps)
  else .error .assertionError

/-- `Taps.remove_tap`: assert that `name` is registered, then
`self.taps.pop(name)`. -/
def remove_tap (taps : Taps) (name : String) : Except TapError Taps :=
  if name ∈ Dict.keys taps then .ok (Dict.pop taps name)
  else .error .assertionError

/-- `Taps.remove_configs`: assert that `name` is registered, then replace
`self.taps[name]["config"]` (a `KeyError` when the tap has no `"config"`
key) with the helper's result. -/
def remove_configs (taps : Taps) (name : String) (args : List String) :
    Except TapError Taps :=
  if name ∈ Dict.keys taps then
    match Dict.get? taps name with
    | some tap =>
      match tap.config with
      | some c =>
        .ok (Dict.insert taps name
          { tap with config := some (UtilsManager.remove_configs c args) })
      | none => .error .keyError
    | none => .error .keyError
  else .error .assertionError

/-- `Taps.remove_filter`: same shape as `remove_configs`, targeting
`"filter"`. -/
def remove_filter (taps : Taps) (name : String) (args : List String) :
    Except TapError Taps :=
  if name ∈ Dict.keys taps then
    match Dict.get? taps name with
    | some tap =>
      match tap.filter with
      | some f =>
        .ok (Dict.insert taps name
          { tap with filter := some (UtilsManager.remove_filters f args) })
      | none => .error .keyError
    | none => .error .keyError
  else .error .assertionError

/-- The body of `Taps.remove_tag`'s inner loop, for one tap: for each key,
when the tap currently has a `"tags"` key the code runs
`self.taps[tap_name].pop(tag_key, None)` — popping the key from the TAP
record itself, not from its `tags` map (translated verbatim). -/
def tap_remove_tags (tap : Tap) (tags_keys : List String) : Tap :=
  tags_keys.foldl
    (fun t k => if t.tags.isSome then Tap.pop t k else t)
    tap

/-- `Taps.remove_tag`: assert that `tap_name` is registered or is `"all"`,
resolve the target name list, and run the per-tap removal loop on every
target. -/
def remove_tag (taps : Taps) (tap_name : String) (tags_keys : List String) :
    Except TapError Taps :=
  if tap_name ∈ Dict.keys taps ∨ tap_name = "all" then
    let tap_names := if tap_name = "all" then Dict.keys taps else [tap_name]
    .ok (tap_names.foldl
      (fun acc nm => taps_apply acc nm (fun t => tap_remove_tags t tags_keys)) taps)
  else .error .assertionError

end Taps

/-- Concrete fixture: a pcap tap built with no keyword arguments — every
recognized key is stored with value null. -/
def pcapNullTap : Tap :=
  { input_type := some (Val.str "pcap"),
    config := some [("pcap_file", Val.null), ("pcap_source", Val.null),
      ("iface", Val.null), ("host_spec", Val.null), ("debug", Val.null)],
    filter := some [("bpf", Val.null)],
    tags := none }

/-- Concrete fixture: a registry holding a tap named `"t1"` and a tap
literally named `"all"`. -/
def regWithAll : Taps :=
  Taps.add_pcap (Taps.add_pcap [] "t1" []) "all" []

/-! ## Dictionary lemmas -/

theorem Dict.get?_insert {α : Type} (d : Dict α) (k k' : String) (v : α) :
    Dict.get? (Dict.insert d k v) k' = if k' = k then some v else Dict.get? d k' := by
  induction d with
  | nil =>
      by_cases h : k' = k <;> simp [Dict.insert, Dict.get?, h]
  | cons p d ih =>
      obtain ⟨a, b⟩ := p
      by_cases hka : k = a
      · subst hka
        by_cases h : k' = k <;> simp [Dict.insert, Dict.get?, h]
      · by_cases h : k' = a
        · subst h
          have hne : ¬(k' = k) := fun hk => hka hk.symm
          simp [Dict.insert, hka, Dict.get?, hne]
        · simp [Dict.insert, hka, Dict.get?, h, ih]

theorem Dict.mem_keys_iff_get?_isSome {α : Type} (d : Dict α) (k : String) :
    k ∈ Dict.keys d ↔ (Dict.get? d k).isSome := by
  induction d with
  | nil => simp [Dict.keys, Dict.get?]
  | cons p d ih =>
      obtain ⟨a, b⟩ := p
      by_cases h : k = a <;> simp [Dict.keys, Dict.get?, h] at ih ⊢
      exact ih

theorem Dict.get?_eq_none_of_not_mem {α : Type} {d : Dict α} {k : String}
    (h : k ∉ Dict.keys d) : Dict.get? d k = none := by
  rcases hd : Dict.get? d k with _ | v
  · rfl
  · exact absurd ((Dict.mem_keys_iff_get?_isSome d k).2 (by simp [hd])) h

theorem Dict.get?_isSome_of_mem {α : Type} {d : Dict α} {k : String}
    (h : k ∈ Dict.keys d) : ∃ v, Dict.get? d k = some v := by
  rcases hd : Dict.get? d k with _ | v
  · exact absurd ((Dict.mem_keys_iff_get?_isSome d k).1 h) (by simp [hd])
  · exact ⟨v, rfl⟩

theorem Dict.get?_pop_self {α : Type} (d : Dict α) (k : String)
    (h : (Dict.keys d).Nodup) : Dict.get? (Dict.pop d k) k = none := by
  induction d with
  | nil => rfl
  | cons p d ih =>
      obtain ⟨a, b⟩ := p
      simp only [Dict.keys, List.map_cons, List.nodup_cons] at h
      by_cases hk : k = a
      · subst hk
        simpa [Dict.pop] using Dict.get?_eq_none_of_not_mem h.1
      · simp [Dict.pop, hk, Dict.get?, ih h.2]

theorem Dict.get?_pop_ne {α : Type} (d : Dict α) (k k' : String) (h : k' ≠ k) :
    Dict.get? (Dict.pop d k) k' = Dict.get? d k' := by
  induction d with
  | nil => rfl
  | cons p d ih =>
      obtain ⟨a, b⟩ := p
      by_cases hk : k = a
      · subst hk
        simp [Dict.pop, Dict.get?, h]
      · by_cases h' : k' = a <;> simp [Dict.pop, hk, Dict.get?, h', ih]

theorem Dict.keys_insert_nodup {α : Type} (d : Dict α) (k : String) (v : α)
    (h : (Dict.keys d).Nodup) : (Dict.keys (Dict.insert d k v)).Nodup := by
  induction d with
  | nil => simp [Dict.insert, Dict.keys]
  | cons p d ih =>
      obtain ⟨a, b⟩ := p
      simp only [Dict.keys, List.map_cons, List.nodup_cons] at h
      by_cases hk : k = a
      · subst hk
        simpa [Dict.insert, Dict.keys, List.nodup_cons] using h
      · have hmem : a ∉ Dict.keys (Dict.insert d k v) := by
          intro hmem
          rcases Dict.get?_isSome_of_mem hmem with ⟨w, hw⟩
          rw [Dict.get?_insert] at hw
          have hak : a ≠ k := fun hak => hk hak.symm
          rw [if_neg hak] at hw
          exact h.1 ((Dict.mem_keys_iff_get?_isSome d a).2 (by simp [hw]))
        have hkeys : Dict.keys (Dict.insert ((a, b) :: d) k v) =
            a :: Dict.keys (Dict.insert d k v) := by
          simp [Dict.insert, hk, Dict.keys]
        rw [hkeys, List.nodup_cons]
        exact ⟨hmem, ih h.2⟩

theorem Dict.get?_updateMany {α : Type} (d e : Dict α) (k : String)
    (he : (Dict.keys e).Nodup) :
    Dict.get? (Dict.updateMany d e) k =
      ((Dict.get? e k).rec (Dict.get? d k) (fun v => some v)) := by
  induction e generalizing d with
  | nil => rfl
  | cons p e ih =>
      obtain ⟨a, b⟩ := p
      simp only [Dict.keys, List.map_cons, List.nodup_cons] at he
      show Dict.get? (Dict.updateMany (Dict.insert d a b) e) k = _
      rw [ih (Dict.insert d a b) he.2]
      by_cases hk : k = a
      · subst hk
        rw [Dict.get?_eq_none_of_not_mem he.1]
        simp [Dict.get?, Dict.get?_insert]
      · rcases hge : Dict.get? e k with _ | v <;>
          simp [Dict.get?, hk, hge, Dict.get?_insert]

/-! ## Registry fold lemmas -/

theorem Taps.get?_taps_apply_ne (s : Taps) (n nm : String) (f : Tap → Tap)
    (h : nm ≠ n) :
    Dict.get? (Taps.taps_apply s n f) nm = Dict.get? s nm := by
  unfold Taps.taps_apply
  rcases Dict.get? s n with _ | tap
  · rfl
  · simp [Dict.get?_insert, h]

theorem Taps.get?_taps_apply_self (s : Taps) (nm : String) (f : Tap → Tap)
    (tap : Tap) (h : Dict.get? s nm = some tap) :
    Dict.get? (Taps.taps_apply s nm f) nm = some (f tap) := by
  unfold Taps.taps_apply
  rw [h]
  simp [Dict.get?_insert]

theorem Taps.get?_fold_apply_not_mem (f : Tap → Tap) (ns : List String)
    (s : Taps) (nm : String) (h : nm ∉ ns) :
    Dict.get? (ns.foldl (fun acc n => Taps.taps_apply acc n f) s) nm =
      Dict.get? s nm := by
  induction ns generalizing s with
  | nil => rfl
  | cons n ns ih =>
      simp only [List.mem_cons, not_or] at h
      simp only [List.foldl_cons]
      rw [ih _ h.2, Taps.get?_taps_apply_ne _ _ _ _ h.1]

theorem Taps.get?_fold_apply (f : Tap → Tap) (ns : List String) (s : Taps)
    (nm : String) (tap : Tap) (hnodup : ns.Nodup) (hmem : nm ∈ ns)
    (hget : Dict.get? s nm = some tap) :
    Dict.get? (ns.foldl (fun acc n => Taps.taps_apply acc n f) s) nm =
      some (f tap) := by
  induction ns generalizing s with
  | nil => cases hmem
  | cons n ns ih =>
      simp only [List.nodup_cons] at hnodup
      simp only [List.foldl_cons]
      by_cases h : nm = n
      · subst h
        rw [Taps.get?_fold_apply_not_mem _ _ _ _ hnodup.1]
        exact Taps.get?_taps_apply_self _ _ _ _ hget
      · have hmem' : nm ∈ ns := by
          rcases List.mem_cons.1 hmem with h' | h'
          · exact absurd h' h
          · exact h'
        exact ih _ hnodup.2 hmem'
          (by rw [Taps.get?_taps_apply_ne _ _ _ _ h]; exact hget)

theorem Dict.get?_updateMany_mem {α : Type} (d e : Dict α) (k : String)
    (he : (Dict.keys e).Nodup) (h : k ∈ Dict.keys e) :
    Dict.get? (Dict.updateMany d e) k = Dict.get? e k := by
  rcases Dict.get?_isSome_of_mem h with ⟨v, hv⟩
  rw [Dict.get?_updateMany d e k he, hv]

theorem Dict.get?_updateMany_not_mem {α : Type} (d e : Dict α) (k : String)
    (h : k ∉ Dict.keys e) :
    Dict.get? (Dict.updateMany d e) k = Dict.get? d k := by
  induction e generalizing d with
  | nil => rfl
  | cons p e ih =>
      simp only [Dict.keys, List.map_cons, List.mem_cons, not_or] at h
      show Dict.get? (Dict.updateMany (Dict.insert d p.1 p.2) e) k = _
      rw [ih _ (by simpa [Dict.keys] using h.2), Dict.get?_insert, if_neg h.1]

theorem Dict.get?_foldl_pop_not_mem {α : Type} (d : Dict α)
    (args : List String) (k : String) (h : k ∉ args) :
    Dict.get? (args.foldl Dict.pop d) k = Dict.get? d k := by
  induction args generalizing d with
  | nil => rfl
  | cons a args ih =>
      simp only [List.mem_cons, not_or] at h
      simp only [List.foldl_cons]
      rw [ih _ h.2, Dict.get?_pop_ne _ _ _ h.1]

theorem Taps.get?_build_tap_self (s : Taps) (name t : String)
    (cl fl : List (String × Val)) :
    Dict.get? (Taps.build_tap s name t cl fl) name =
      some (UtilsManager.update_object_with_filters_and_configs
        { input_type := some (Val.str t), config := some [],
          filter := some [], tags := none } cl fl) := by
  unfold Taps.build_tap
  rw [Dict.get?_insert, if_pos rfl]

theorem Taps.keys_build_tap_nodup (s : Taps) (name t : String)
    (cl fl : List (String × Val)) (h : (Dict.keys s).Nodup) :
    (Dict.keys (Taps.build_tap s name t cl fl)).Nodup :=
  Dict.keys_insert_nodup s name _ h

/-! ## Claims -/

/-- C1 (code evaluated at the failing input): after `add_pcap("t1")`,
`add_tag("t1", {"k": "v"})` and then `remove_tag("t1", ["k"])`, the tag
`"k"` is still present in the tap's `tags` map, so the round trip does NOT
restore the pre-addition state (which had no `tags` key at all).  The
cause: `remove_tag` runs `self.taps[tap_name].pop(tag_key, None)`, popping
the key from the tap record itself instead of from its `tags` map. -/
theorem C1_remove_tag_leaves_tag :
    (Taps.add_tag (Taps.add_pcap [] "t1" []) "t1" [("k", Val.str "v")]).bind
      (fun s => Taps.remove_tag s "t1" ["k"]) =
    Except.ok [("t1",
      { input_type := some (Val.str "pcap"),
        config := some [("pcap_file", Val.null), ("pcap_source", Val.null),
          ("iface", Val.null), ("host_spec", Val.null), ("debug", Val.null)],
        filter := some [("bpf", Val.null)],
        tags := some [("k", Val.str "v")] })] := by rfl

/-- C9 (code evaluated at the failing input): after a tap's `tags` map has
been created by `add_tag`, `remove_tag("t1", ["tags"])` deletes the whole
`tags` key from the still-existing tap record — the same
`self.taps[tap_name].pop(tag_key, None)` slip as in C1 — so the `tags`
key does not persist for the tap's lifetime as the claim states. -/
theorem C9_tags_key_deleted :
    (Taps.add_tag (Taps.add_pcap [] "t1" []) "t1" [("k", Val.str "v")]).bind
      (fun s => Taps.remove_tag s "t1" ["tags"]) =
    Except.ok [("t1",
      { input_type := some (Val.str "pcap"),
        config := some [("pcap_file", Val.null), ("pcap_source", Val.null),
          ("iface", Val.null), ("host_spec", Val.null), ("debug", Val.null)],
        filter := some [("bpf", Val.null)],
        tags := none })] := by rfl

/-- C3 counterexample: on the empty registry,
`add_pcap("t1", iface="eth0", bpf="tcp port 80")` does not produce the
entry the claim describes — the unsupplied recognized pcap config keys are
not absent; in particular `"pcap_file"` is present with value null. -/
theorem C3_counterexample :
    Dict.get? (Taps.add_pcap [] "t1"
        [("iface", Val.str "eth0"), ("bpf", Val.str "tcp port 80")]) "t1" ≠
      some { input_type := some (Val.str "pcap"),
             config := some [("iface", Val.str "eth0")],
             filter := some [("bpf", Val.str "tcp port 80")],
             tags := none } ∧
    (Dict.get? (Taps.add_pcap [] "t1"
        [("iface", Val.str "eth0"), ("bpf", Val.str "tcp port 80")]) "t1").bind
      (fun tap => tap.config.bind (fun c => Dict.get? c "pcap_file")) =
      some Val.null := by decide

/-- C3 amended: on any registry,
`add_pcap("t1", iface="eth0", bpf="tcp port 80")` yields an entry for
`"t1"` with `input_type = "pcap"`, `filter = {"bpf": "tcp port 80"}`, and
a config map holding `iface = "eth0"` together with the other recognized
pcap config keys (`pcap_file`, `pcap_source`, `host_spec`, `debug`) as
explicit null entries, since absent keyword values are stored as null. -/
theorem C3_pcap_entry (s : Taps) :
    Dict.get? (Taps.add_pcap s "t1"
        [("iface", Val.str "eth0"), ("bpf", Val.str "tcp port 80")]) "t1" =
      some { input_type := some (Val.str "pcap"),
             config := some [("pcap_file", Val.null), ("pcap_source", Val.null),
               ("iface", Val.str "eth0"), ("host_spec", Val.null),
               ("debug", Val.null)],
             filter := some [("bpf", Val.str "tcp port 80")],
             tags := none } := by
  unfold Taps.add_pcap
  rw [Taps.get?_build_tap_self]
  decide

/-- C5: calling the same add-variant operation twice with the same name
fully replaces the first entry — for each of the three variants, the entry
for `name` after the second call equals the entry the second call alone
would have produced on the original registry — and the name remains a
unique key (the key list stays duplicate-free). -/
theorem C5_readd_replaces (s : Taps) (name : String) (kw1 kw2 : Dict Val)
    (hnodup : (Dict.keys s).Nodup) :
    Dict.get? (Taps.add_pcap (Taps.add_pcap s name kw1) name kw2) name =
      Dict.get? (Taps.add_pcap s name kw2) name ∧
    Dict.get? (Taps.add_flow (Taps.add_flow s name kw1) name kw2) name =
      Dict.get? (Taps.add_flow s name kw2) name ∧
    Dict.get? (Taps.add_dnstap (Taps.add_dnstap s name kw1) name kw2) name =
      Dict.get? (Taps.add_dnstap s name kw2) name ∧
    (Dict.keys (Taps.add_pcap (Taps.add_pcap s name kw1) name kw2)).Nodup ∧
    (Dict.keys (Taps.add_flow (Taps.add_flow s name kw1) name kw2)).Nodup ∧
    (Dict.keys (Taps.add_dnstap (Taps.add_dnstap s name kw1) name kw2)).Nodup := by
  refine ⟨?_, ?_, ?_, ?_, ?_, ?_⟩
  · unfold Taps.add_pcap
    rw [Taps.get?_build_tap_self, Taps.get?_build_tap_self]
  · unfold Taps.add_flow
    rw [Taps.get?_build_tap_self, Taps.get?_build_tap_self]
  · unfold Taps.add_dnstap
    rw [Taps.get?_build_tap_self, Taps.get?_build_tap_self]
  · exact Taps.keys_build_tap_nodup _ _ _ _ _
      (Taps.keys_build_tap_nodup _ _ _ _ _ hnodup)
  · exact Taps.keys_build_tap_nodup _ _ _ _ _
      (Taps.keys_build_tap_nodup _ _ _ _ _ hnodup)
  · exact Taps.keys_build_tap_nodup _ _ _ _ _
      (Taps.keys_build_tap_nodup _ _ _ _ _ hnodup)

/-- C5 witness at a concrete instance. -/
theorem C5_readd_replaces_witness :
    Dict.get? (Taps.add_pcap (Taps.add_pcap [] "t1"
        [("iface", Val.str "a")]) "t1" [("iface", Val.str "b")]) "t1" =
      Dict.get? (Taps.add_pcap [] "t1" [("iface", Val.str "b")]) "t1" ∧
    Dict.get? (Taps.add_flow (Taps.add_flow [] "t1"
        [("iface", Val.str "a")]) "t1" [("iface", Val.str "b")]) "t1" =
      Dict.get? (Taps.add_flow [] "t1" [("iface", Val.str "b")]) "t1" ∧
    Dict.get? (Taps.add_dnstap (Taps.add_dnstap [] "t1"
        [("iface", Val.str "a")]) "t1" [("iface", Val.str "b")]) "t1" =
      Dict.get? (Taps.add_dnstap [] "t1" [("iface", Val.str "b")]) "t1" ∧
    (Dict.keys (Taps.add_pcap (Taps.add_pcap [] "t1"
        [("iface", Val.str "a")]) "t1" [("iface", Val.str "b")])).Nodup ∧
    (Dict.keys (Taps.add_flow (Taps.add_flow [] "t1"
        [("iface", Val.str "a")]) "t1" [("iface", Val.str "b")])).Nodup ∧
    (Dict.keys (Taps.add_dnstap (Taps.add_dnstap [] "t1"
        [("iface", Val.str "a")]) "t1" [("iface", Val.str "b")])).Nodup :=
  C5_readd_replaces [] "t1" [("iface", Val.str "a")] [("iface", Val.str "b")]
    (by decide)

/-- C6: `remove_tap` fails the "Invalid tap" assertion on every
unregistered name; on a registered name it deletes the entry entirely, so
a subsequent lookup finds nothing and a subsequent `remove_tap` of the
same name fails the assertion too. -/
theorem C6_remove_tap_spec (s : Taps) (name : String)
    (hnodup : (Dict.keys s).Nodup) :
    (name ∉ Dict.keys s →
      Taps.remove_tap s name = .error .assertionError) ∧
    (name ∈ Dict.keys s →
      ∃ s', Taps.remove_tap s name = .ok s' ∧
        Dict.get? s' name = none ∧
        Taps.remove_tap s' name = .error .assertionError) := by
  constructor
  · intro h
    unfold Taps.remove_tap
    rw [if_neg h]
  · intro h
    refine ⟨Dict.pop s name, ?_, ?_, ?_⟩
    · unfold Taps.remove_tap
      rw [if_pos h]
    · exact Dict.get?_pop_self s name hnodup
    · have hnot : name ∉ Dict.keys (Dict.pop s name) := by
        intro hmem
        have := (Dict.mem_keys_iff_get?_isSome _ _).1 hmem
        rw [Dict.get?_pop_self s name hnodup] at this
        simp at this
      unfold Taps.remove_tap
      rw [if_neg hnot]

/-- C6 witness at a concrete instance. -/
theorem C6_remove_tap_spec_witness :
    ("t1" ∉ Dict.keys (Taps.add_pcap [] "t1" []) →
      Taps.remove_tap (Taps.add_pcap [] "t1" []) "t1" =
        .error .assertionError) ∧
    ("t1" ∈ Dict.keys (Taps.add_pcap [] "t1" []) →
      ∃ s', Taps.remove_tap (Taps.add_pcap [] "t1" []) "t1" = .ok s' ∧
        Dict.get? s' "t1" = none ∧
        Taps.remove_tap s' "t1" = .error .assertionError) :=
  C6_remove_tap_spec (Taps.add_pcap [] "t1" []) "t1" (by decide)

/-- C2: for every add-variant operation, each recognized config/filter key
the caller does not supply is still stored in the created tap's
config/filter map as an explicit null entry; and null entries are never
implicitly pruned — the merge helpers leave every key they do not mention
unchanged, and the removal helpers remove only the keys they name. -/
theorem C2_null_entries (s : Taps) (name k : String) (kwargs : Dict Val)
    (habs : Dict.get? kwargs k = none) :
    (k ∈ ["pcap_file", "pcap_source", "iface", "host_spec", "debug"] →
      ∃ tap c, Dict.get? (Taps.add_pcap s name kwargs) name = some tap ∧
        tap.config = some c ∧ Dict.get? c k = some Val.null) ∧
    (k = "bpf" →
      ∃ tap f, Dict.get? (Taps.add_pcap s name kwargs) name = some tap ∧
        tap.filter = some f ∧ Dict.get? f k = some Val.null) ∧
    (k ∈ ["pcap_file", "port", "bind", "flow_type"] →
      ∃ tap c, Dict.get? (Taps.add_flow s name kwargs) name = some tap ∧
        tap.config = some c ∧ Dict.get? c k = some Val.null) ∧
    (k ∈ ["dnstap_file", "socket", "tcp"] →
      ∃ tap c, Dict.get? (Taps.add_dnstap s name kwargs) name = some tap ∧
        tap.config = some c ∧ Dict.get? c k = some Val.null) ∧
    (k = "only_hosts" →
      ∃ tap f, Dict.get? (Taps.add_dnstap s name kwargs) name = some tap ∧
        tap.filter = some f ∧ Dict.get? f k = some Val.null) ∧
    (∀ (c kw : Dict Val), k ∉ Dict.keys kw →
      Dict.get? (UtilsManager.add_configs c kw) k = Dict.get? c k ∧
      Dict.get? (UtilsManager.add_filters c kw) k = Dict.get? c k) ∧
    (∀ (c : Dict Val) (args : List String), k ∉ args →
      Dict.get? (UtilsManager.remove_configs c args) k = Dict.get? c k ∧
      Dict.get? (UtilsManager.remove_filters c args) k = Dict.get? c k) := by
  refine ⟨?_, ?_, ?_, ?_, ?_, ?_, ?_⟩
  · intro hk
    unfold Taps.add_pcap
    rw [Taps.get?_build_tap_self]
    refine ⟨_, _, rfl, rfl, ?_⟩
    fin_cases hk <;>
      simp [UtilsManager.update_object_with_filters_and_configs, Option.getD,
        Dict.updateMany, Dict.insert, Dict.get?, Taps.kwget, habs]
  · rintro rfl
    unfold Taps.add_pcap
    rw [Taps.get?_build_tap_self]
    refine ⟨_, _, rfl, rfl, ?_⟩
    simp [UtilsManager.update_object_with_filters_and_configs, Option.getD,
      Dict.updateMany, Dict.insert, Dict.get?, Taps.kwget, habs]
  · intro hk
    unfold Taps.add_flow
    rw [Taps.get?_build_tap_self]
    refine ⟨_, _, rfl, rfl, ?_⟩
    fin_cases hk <;>
      simp [UtilsManager.update_object_with_filters_and_configs, Option.getD,
        Dict.updateMany, Dict.insert, Dict.get?, Taps.kwget, habs]
  · intro hk
    unfold Taps.add_dnstap
    rw [Taps.get?_build_tap_self]
    refine ⟨_, _, rfl, rfl, ?_⟩
    fin_cases hk <;>
      simp [UtilsManager.update_object_with_filters_and_configs, Option.getD,
        Dict.updateMany, Dict.insert, Dict.get?, Taps.kwget, habs]
  · rintro rfl
    unfold Taps.add_dnstap
    rw [Taps.get?_build_tap_self]
    refine ⟨_, _, rfl, rfl, ?_⟩
    simp [UtilsManager.update_object_with_filters_and_configs, Option.getD,
      Dict.updateMany, Dict.insert, Dict.get?, Taps.kwget, habs]
  · intro c kw hkw
    exact ⟨Dict.get?_updateMany_not_mem c kw k hkw,
      Dict.get?_updateMany_not_mem c kw k hkw⟩
  · intro c args h
    exact ⟨Dict.get?_foldl_pop_not_mem c args k h,
      Dict.get?_foldl_pop_not_mem c args k h⟩

/-- C2 witness at a concrete instance: `pcap_file` unsupplied. -/
theorem C2_null_entries_witness :
    ∃ tap c, Dict.get? (Taps.add_pcap [] "t1" []) "t1" = some tap ∧
      tap.config = some c ∧ Dict.get? c "pcap_file" = some Val.null :=
  (C2_null_entries [] "t1" "pcap_file" [] (by decide)).1 (by decide)

/-- C4: `add_tag("all", {k: v})` sets tag `k` to `v` on every tap
registered at the moment of the call, and a tap added by an add-variant
operation afterwards carries no `tags` key at all (so it does not carry
the tag). -/
theorem C4_all_tag (s : Taps) (k : String) (v : Val) (nm : String)
    (tap : Tap) (hnodup : (Dict.keys s).Nodup)
    (hget : Dict.get? s nm = some tap) :
    (∃ s', Taps.add_tag s "all" [(k, v)] = .ok s' ∧
      ∃ m, Dict.get? s' nm = some (Taps.tap_add_tags tap [(k, v)]) ∧
        (Taps.tap_add_tags tap [(k, v)]).tags = some m ∧
        Dict.get? m k = some v) ∧
    (∀ (s2 : Taps) (na : String) (kw : Dict Val),
      (∃ t1, Dict.get? (Taps.add_pcap s2 na kw) na = some t1 ∧
        t1.tags = none) ∧
      (∃ t2, Dict.get? (Taps.add_flow s2 na kw) na = some t2 ∧
        t2.tags = none) ∧
      (∃ t3, Dict.get? (Taps.add_dnstap s2 na kw) na = some t3 ∧
        t3.tags = none)) := by
  have hmem : nm ∈ Dict.keys s :=
    (Dict.mem_keys_iff_get?_isSome s nm).2 (by simp [hget])
  constructor
  · have h1 := Taps.get?_fold_apply (fun t => Taps.tap_add_tags t [(k, v)])
      (Dict.keys s) s nm tap hnodup hmem hget
    refine ⟨List.foldl (fun acc n => Taps.taps_apply acc n
      (fun t => Taps.tap_add_tags t [(k, v)])) s (Dict.keys s), ?_, ?_⟩
    · unfold Taps.add_tag
      rw [if_pos (Or.inr rfl)]
      rfl
    · rcases htags : tap.tags with _ | m0
      · exact ⟨[(k, v)], h1, by simp [Taps.tap_add_tags, htags],
          by simp [Dict.get?]⟩
      · exact ⟨Dict.insert m0 k v, h1, by simp [Taps.tap_add_tags, htags],
          by simp [Dict.get?_insert]⟩
  · intro s2 na kw
    exact ⟨⟨_, Taps.get?_build_tap_self s2 na "pcap" _ _, rfl⟩,
      ⟨_, Taps.get?_build_tap_self s2 na "flow" _ _, rfl⟩,
      ⟨_, Taps.get?_build_tap_self s2 na "dnstap" _ _, rfl⟩⟩

/-- C4 witness at a concrete instance. -/
theorem C4_all_tag_witness :
    (∃ s', Taps.add_tag regWithAll "all" [("k", Val.str "v")] = .ok s' ∧
      ∃ m, Dict.get? s' "t1" =
          some (Taps.tap_add_tags pcapNullTap [("k", Val.str "v")]) ∧
        (Taps.tap_add_tags pcapNullTap [("k", Val.str "v")]).tags = some m ∧
        Dict.get? m "k" = some (Val.str "v")) ∧
    (∀ (s2 : Taps) (na : String) (kw : Dict Val),
      (∃ t1, Dict.get? (Taps.add_pcap s2 na kw) na = some t1 ∧
        t1.tags = none) ∧
      (∃ t2, Dict.get? (Taps.add_flow s2 na kw) na = some t2 ∧
        t2.tags = none) ∧
      (∃ t3, Dict.get? (Taps.add_dnstap s2 na kw) na = some t3 ∧
        t3.tags = none)) :=
  C4_all_tag regWithAll "k" (Val.str "v") "t1" pcapNullTap
    (by decide) (by decide)

/-- C7: `add_configs` fails with a `KeyError` (a `LookupError`) on every
unregistered name; on a registered name it ensures the tap has a config
map and merges each supplied key/value pair into it, overwriting keys that
already exist and adding keys that do not. -/
theorem C7_add_configs_spec (s : Taps) (name : String) (kwargs : Dict Val)
    (hkw : (Dict.keys kwargs).Nodup) :
    (Dict.get? s name = none →
      Taps.add_configs s name kwargs = .error .keyError) ∧
    (∀ tap, Dict.get? s name = some tap →
      ∃ s' tap' c, Taps.add_configs s name kwargs = .ok s' ∧
        Dict.get? s' name = some tap' ∧ tap'.config = some c ∧
        (∀ k, k ∈ Dict.keys kwargs → Dict.get? c k = Dict.get? kwargs k) ∧
        (∀ k, k ∉ Dict.keys kwargs →
          Dict.get? c k = Dict.get? (tap.config.getD []) k)) := by
  constructor
  · intro h
    unfold Taps.add_configs
    rw [h]
  · intro tap hget
    have hbase : ((if tap.config.isSome then tap
        else { tap with config := some [] }).config.getD []) =
        tap.config.getD [] := by
      rcases h : tap.config with _ | c0 <;> simp [h]
    unfold Taps.add_configs
    rw [hget]
    refine ⟨_, _, _, rfl, by rw [Dict.get?_insert, if_pos rfl], rfl, ?_, ?_⟩
    · intro k hk
      exact Dict.get?_updateMany_mem _ kwargs k hkw hk
    · intro k hk
      exact (Dict.get?_updateMany_not_mem _ kwargs k hk).trans (by rw [hbase])

/-- C7 witness at a concrete instance. -/
theorem C7_add_configs_spec_witness :
    (Dict.get? (Taps.add_pcap [] "t1" []) "t1" = none →
      Taps.add_configs (Taps.add_pcap [] "t1" []) "t1"
        [("x", Val.str "1")] = .error .keyError) ∧
    (∀ tap, Dict.get? (Taps.add_pcap [] "t1" []) "t1" = some tap →
      ∃ s' tap' c, Taps.add_configs (Taps.add_pcap [] "t1" [])
          "t1" [("x", Val.str "1")] = .ok s' ∧
        Dict.get? s' "t1" = some tap' ∧ tap'.config = some c ∧
        (∀ k, k ∈ Dict.keys [("x", Val.str "1")] →
          Dict.get? c k = Dict.get? [("x", Val.str "1")] k) ∧
        (∀ k, k ∉ Dict.keys [("x", Val.str "1")] →
          Dict.get? c k = Dict.get? (tap.config.getD []) k)) :=
  C7_add_configs_spec (Taps.add_pcap [] "t1" []) "t1"
    [("x", Val.str "1")] (by decide)

/-- C8: every operation that can fail because the referenced tap name is
not registered (and is not the `"all"` sentinel where applicable) fails
with its error before producing any registry, so the caller's registry is
exactly as before the call. -/
theorem C8_fail_before_mutation (s : Taps) (name : String)
    (kwargs tags : Dict Val) (ks : List String)
    (h : name ∉ Dict.keys s) :
    Taps.add_configs s name kwargs = .error .keyError ∧
    Taps.add_filters s name kwargs = .error .keyError ∧
    (name ≠ "all" → Taps.add_tag s name tags = .error .assertionError) ∧
    Taps.remove_tap s name = .error .assertionError ∧
    Taps.remove_configs s name ks = .error .assertionError ∧
    Taps.remove_filter s name ks = .error .assertionError ∧
    (name ≠ "all" → Taps.remove_tag s name ks = .error .assertionError) := by
  have hnone : Dict.get? s name = none := Dict.get?_eq_none_of_not_mem h
  refine ⟨?_, ?_, ?_, ?_, ?_, ?_, ?_⟩
  · unfold Taps.add_configs
    rw [hnone]
  · unfold Taps.add_filters
    rw [hnone]
  · intro hall
    unfold Taps.add_tag
    rw [if_neg (not_or.mpr ⟨h, hall⟩)]
  · unfold Taps.remove_tap
    rw [if_neg h]
  · unfold Taps.remove_configs
    rw [if_neg h]
  · unfold Taps.remove_filter
    rw [if_neg h]
  · intro hall
    unfold Taps.remove_tag
    rw [if_neg (not_or.mpr ⟨h, hall⟩)]

/-- C8 witness at a concrete instance. -/
theorem C8_fail_before_mutation_witness :
    Taps.add_configs regWithAll "zz" [] = .error .keyError ∧
    Taps.add_filters regWithAll "zz" [] = .error .keyError ∧
    ("zz" ≠ "all" → Taps.add_tag regWithAll "zz" [] =
      .error .assertionError) ∧
    Taps.remove_tap regWithAll "zz" = .error .assertionError ∧
    Taps.remove_configs regWithAll "zz" [] = .error .assertionError ∧
    Taps.remove_filter regWithAll "zz" [] = .error .assertionError ∧
    ("zz" ≠ "all" → Taps.remove_tag regWithAll "zz" [] =
      .error .assertionError) :=
  C8_fail_before_mutation regWithAll "zz" [] [] [] (by decide)

/-- C10: the `"all"` sentinel check precedes the name lookup — even on a
registry where a tap literally named `"all"` is registered, `add_tag` and
`remove_tag` called with `"all"` apply their per-tap action to every
registered tap (here: to an arbitrary registered `nm`), so a tap named
`"all"` can never be targeted individually by these operations. -/
theorem C10_sentinel_precedence (s : Taps) (nm : String) (tap : Tap)
    (k : String) (v : Val) (ks : List String)
    (hnodup : (Dict.keys s).Nodup) (_hall : "all" ∈ Dict.keys s)
    (hget : Dict.get? s nm = some tap) :
    (∃ s', Taps.add_tag s "all" [(k, v)] = .ok s' ∧
      Dict.get? s' nm = some (Taps.tap_add_tags tap [(k, v)])) ∧
    (∃ s', Taps.remove_tag s "all" ks = .ok s' ∧
      Dict.get? s' nm = some (Taps.tap_remove_tags tap ks)) := by
  have hmem : nm ∈ Dict.keys s :=
    (Dict.mem_keys_iff_get?_isSome s nm).2 (by simp [hget])
  constructor
  · refine ⟨_, ?_, Taps.get?_fold_apply (fun t => Taps.tap_add_tags t [(k, v)])
      (Dict.keys s) s nm tap hnodup hmem hget⟩
    unfold Taps.add_tag
    rw [if_pos (Or.inr rfl)]
    rfl
  · refine ⟨_, ?_, Taps.get?_fold_apply (fun t => Taps.tap_remove_tags t ks)
      (Dict.keys s) s nm tap hnodup hmem hget⟩
    unfold Taps.remove_tag
    rw [if_pos (Or.inr rfl)]
    rfl

/-- C10 witness at a concrete instance: the registry holds both `"t1"` and
a tap literally named `"all"`. -/
theorem C10_sentinel_precedence_witness :
    (∃ s', Taps.add_tag regWithAll "all" [("k", Val.str "v")] = .ok s' ∧
      Dict.get? s' "t1" =
        some (Taps.tap_add_tags pcapNullTap [("k", Val.str "v")])) ∧
    (∃ s', Taps.remove_tag regWithAll "all" ["k"] = .ok s' ∧
      Dict.get? s' "t1" =
        some (Taps.tap_remove_tags pcapNullTap ["k"])) :=
  C10_sentinel_precedence regWithAll "t1" pcapNullTap "k" (Val.str "v")
    ["k"] (by decide) (by decide) (by decide)
